import Mathlib

set_option maxRecDepth 100000

/-!
Verification of the ChipFlow design generator (`scripts/generate-design-py.js`).

The generator is a pure function from a configuration document (a list of
block descriptors) to the text of a Python `design.py` file.  We embed the
data model and every processing stage of `generateDesignPy` shallowly:
block selection, keyword classification, import-set construction,
interface-list construction, memory-map construction, CPU/memory/IO
instantiation-code construction and the final assembly.
-/

namespace DesignGen

/-- One selectable hardware unit of the configuration document
(`id`, `type`, `enabled`, `count`, `bitSize` as in the JSON input). -/
structure Block where
  id : String
  type : Option String := none
  enabled : Option Bool := none
  count : Option Nat := none
  bitSize : Option Nat := none
deriving DecidableEq, Repr

/-- Top-level configuration document: `enabledBlocks` (configurator shape)
or `digitalBlocks` (test-file shape); the unused `config` field is omitted. -/
structure DesignData where
  enabledBlocks : Option (List Block) := none
  digitalBlocks : Option (List Block) := none
deriving DecidableEq, Repr

/-- `leadsWith sub l` is true when `sub` is an initial segment of `l`
(character-list level helper for JavaScript `String.prototype.includes`). -/
def leadsWith : List Char → List Char → Bool
  | [], _ => true
  | _ :: _, [] => false
  | a :: as, b :: bs => a == b && leadsWith as bs

/-- `occursIn sub l` is true when `sub` occurs contiguously somewhere in `l`. -/
def occursIn (sub : List Char) : List Char → Bool
  | [] => leadsWith sub []
  | c :: t => leadsWith sub (c :: t) || occursIn sub t

/-- JavaScript `s.includes(sub)`: substring containment. -/
def includes (s sub : String) : Bool := occursIn sub.data s.data

/-- JavaScript `v || dflt` on an optional number (`0` is falsy). -/
def jsOrNat (v : Option Nat) (dflt : Nat) : Nat :=
  match v with
  | some n => if n = 0 then dflt else n
  | none => dflt

/-- `enabledBlocks || digitalBlocks || []` (an array, even empty, is truthy). -/
def allBlocks (d : DesignData) : List Block :=
  d.enabledBlocks.getD (d.digitalBlocks.getD [])

/-- Block selection: `enabledBlocks ? filter(type === 'digital') : filter(enabled)`. -/
def digitalBlocksOf (d : DesignData) : List Block :=
  match d.enabledBlocks with
  | some l => l.filter (fun b => b.type == some "digital")
  | none => (d.digitalBlocks.getD []).filter (fun b => b.enabled == some true)

/-- `block.id.includes('cv32e40p') || block.id.includes('minerva')`. -/
def isProcessor (b : Block) : Bool :=
  includes b.id "cv32e40p" || includes b.id "minerva"

/-- `block.id.includes('sram') || block.id.includes('qspi') || block.id.includes('hyperram')`. -/
def isMemory (b : Block) : Bool :=
  includes b.id "sram" || includes b.id "qspi" || includes b.id "hyperram"

/-- `gpio`/`uart`/`spi`/`i2c` keyword classification of an IO block. -/
def isIoBlock (b : Block) : Bool :=
  includes b.id "gpio" || includes b.id "uart" ||
    includes b.id "spi" || includes b.id "i2c"

def processorsOf (bs : List Block) : List Block := bs.filter isProcessor

def memoryOf (bs : List Block) : List Block := bs.filter isMemory

def ioOf (bs : List Block) : List Block := bs.filter isIoBlock

/-- `processors[0]` — the first processor-classified block, if any. -/
def cpuOf (bs : List Block) : Option Block := (processorsOf bs).head?

/-- `cpu?.id.includes('cv32e40p')`. -/
def cpuIsCv32 (bs : List Block) : Bool :=
  match cpuOf bs with
  | some c => includes c.id "cv32e40p"
  | none => false

/-- The `else if (cpu?.id.includes('minerva'))` condition. -/
def cpuIsMinerva (bs : List Block) : Bool :=
  match cpuOf bs with
  | some c => !includes c.id "cv32e40p" && includes c.id "minerva"
  | none => false

def memHasQspi (bs : List Block) : Bool :=
  (memoryOf bs).any (fun b => includes b.id "qspi")

def memHasHyperram (bs : List Block) : Bool :=
  (memoryOf bs).any (fun b => includes b.id "hyperram")

def memHasSram (bs : List Block) : Bool :=
  (memoryOf bs).any (fun b => includes b.id "sram")

def ioHasGpio (bs : List Block) : Bool :=
  (ioOf bs).any (fun b => includes b.id "gpio")

def ioHasUart (bs : List Block) : Bool :=
  (ioOf bs).any (fun b => includes b.id "uart")

def ioHasSpi (bs : List Block) : Bool :=
  (ioOf bs).any (fun b => includes b.id "spi")

def ioHasI2c (bs : List Block) : Bool :=
  (ioOf bs).any (fun b => includes b.id "i2c")

example : includes "qspi_flash" "spi" = true := by decide
example : includes "gpio_block" "spi" = false := by decide
example : digitalBlocksOf ⟨none, none⟩ = [] := by decide
example :
    digitalBlocksOf ⟨some [⟨"uart0", some "digital", none, none, none⟩], some []⟩
      = [⟨"uart0", some "digital", none, none, none⟩] := by decide

/-- JavaScript `Array.prototype.join(sep)`. -/
def joinSep (sep : String) : List String → String
  | [] => ""
  | [x] => x
  | x :: y :: t => x ++ sep ++ joinSep sep (y :: t)

/-- Concatenation of a list of strings (string accumulation across a loop). -/
def concatAll : List String → String
  | [] => ""
  | x :: t => x ++ concatAll t

/-- JavaScript `Set.prototype.add`: append unless already present
(insertion order is preserved, duplicates are dropped). -/
def addImport (l : List String) (x : String) : List String :=
  if x ∈ l then l else l ++ [x]

/-- `new Set([...])`: deduplicate a list keeping first occurrences. -/
def setFromList (xs : List String) : List String :=
  xs.foldl addImport []

/-- The fixed seed of the import set (lines 34-45 of the generator). -/
def importsStage0 : List String :=
  setFromList
    ["from pathlib import Path",
     "",
     "from amaranth import Module",
     "from amaranth.lib import wiring",
     "from amaranth.lib.wiring import Out, flipped, connect",
     "",
     "from amaranth_soc import csr, wishbone",
     "from amaranth_soc.csr.wishbone import WishboneCSRBridge",
     "",
     "from chipflow_digital_ip.base import SoCID"]

def qspiMemImport : String := "from chipflow_digital_ip.memory import QSPIFlash"

def hyperramImport : String := "from chipflow_digital_ip.memory import HyperRAM"

def sramImport : String := "from amaranth_soc.wishbone.sram import WishboneSRAM"

def cv32Import : String :=
  "from chipflow_digital_ip.processors import CV32E40P, OBIDebugModule"

def minervaImport : String := "from minerva.core import Minerva"

/-- Memory imports: QSPI flash. -/
def importsStage1 (bs : List Block) : List String :=
  if memHasQspi bs then addImport importsStage0 qspiMemImport else importsStage0

/-- Memory imports: HyperRAM. -/
def importsStage2 (bs : List Block) : List String :=
  if memHasHyperram bs then addImport (importsStage1 bs) hyperramImport
  else importsStage1 bs

/-- Memory imports: SRAM (added when an `sram` block exists or no memory block at all). -/
def importsStage3 (bs : List Block) : List String :=
  if memHasSram bs || (memoryOf bs).isEmpty then
    addImport (importsStage2 bs) sramImport
  else importsStage2 bs

/-- The `ioImports` array of peripheral class names, in push order. -/
def ioImportNames (bs : List Block) : List String :=
  (if ioHasGpio bs then ["GPIOPeripheral"] else []) ++
    (if ioHasUart bs then ["UARTPeripheral"] else []) ++
    (if ioHasSpi bs then ["SPIPeripheral"] else []) ++
    (if ioHasI2c bs then ["I2CPeripheral"] else [])

/-- The aggregated IO import line. -/
def ioImportLine (bs : List Block) : String :=
  "from chipflow_digital_ip.io import " ++ joinSep ", " (ioImportNames bs)

/-- IO imports (one aggregated line, added only when some IO kind is present). -/
def importsStage4 (bs : List Block) : List String :=
  if 0 < (ioImportNames bs).length then
    addImport (importsStage3 bs) (ioImportLine bs)
  else importsStage3 bs

/-- Processor imports. -/
def importsStage5 (bs : List Block) : List String :=
  match cpuOf bs with
  | some c =>
    if includes c.id "cv32e40p" then addImport (importsStage4 bs) cv32Import
    else if includes c.id "minerva" then addImport (importsStage4 bs) minervaImport
    else importsStage4 bs
  | none => importsStage4 bs

/-- The `platformImports` array, in push order. -/
def platformNames (bs : List Block) : List String :=
  ["attach_data", "SoftwareBuild"] ++
    (if ioHasGpio bs then ["GPIOSignature"] else []) ++
    (if ioHasUart bs then ["UARTSignature"] else []) ++
    (if ioHasSpi bs then ["SPISignature"] else []) ++
    (if ioHasI2c bs then ["I2CSignature"] else []) ++
    (if memHasQspi bs then ["QSPIFlashSignature"] else []) ++
    (if cpuIsCv32 bs then ["JTAGSignature"] else [])

def platformImportLine (bs : List Block) : String :=
  "from chipflow_lib.platforms import " ++ joinSep ", " (platformNames bs)

/-- The final import set: platform imports are added unconditionally. -/
def importsFrom (bs : List Block) : List String :=
  addImport (importsStage5 bs) (platformImportLine bs)

/-- Interface declaration for the QSPI flash pin group. -/
def flashIface : String := "\"flash\": Out(QSPIFlashSignature())"

/-- Interface declaration for the CV32E40P JTAG debug pins. -/
def jtagIface : String := "\"cpu_jtag\": Out(JTAGSignature())"

def gpioIfaceStr (i bitSize : Nat) : String :=
  "\"gpio_" ++ toString i ++ "\": Out(GPIOSignature(pin_count=" ++
    toString bitSize ++ "))"

def uartIfaceStr (i : Nat) : String :=
  "\"uart_" ++ toString i ++ "\": Out(UARTSignature())"

def spiIfaceStr (i : Nat) : String :=
  "\"spi_" ++ toString i ++ "\": Out(SPISignature())"

def i2cIfaceStr (i : Nat) : String :=
  "\"i2c_" ++ toString i ++ "\": Out(I2CSignature())"

/-- One step of the `io.forEach` loop pushing interface declarations.
The SPI branch derives its start index from the interfaces pushed so far
(`interfaces.filter(iface => iface.includes('spi_')).length`). -/
def ioInterfaceStep (acc : List String) (b : Block) : List String :=
  if includes b.id "gpio" then
    acc ++ (List.range (jsOrNat b.count 1)).map
      (fun i => gpioIfaceStr i (jsOrNat b.bitSize 8))
  else if includes b.id "uart" then
    acc ++ (List.range (jsOrNat b.count 1)).map (fun i => uartIfaceStr i)
  else if includes b.id "spi" then
    acc ++ (List.range (jsOrNat b.count 1)).map
      (fun i => spiIfaceStr ((acc.filter (fun s => includes s "spi_")).length + i))
  else if includes b.id "i2c" then
    acc ++ (List.range (jsOrNat b.count 1)).map (fun i => i2cIfaceStr i)
  else acc

/-- Interfaces pushed before the IO loop: flash (if QSPI) then CPU JTAG (if CV32E40P). -/
def ifaceInit (bs : List Block) : List String :=
  (if memHasQspi bs then [flashIface] else []) ++
    (if cpuIsCv32 bs then [jtagIface] else [])

/-- The full ordered interface-declaration list. -/
def interfacesFrom (bs : List Block) : List String :=
  (ioOf bs).foldl ioInterfaceStep (ifaceInit bs)

example :
    interfacesFrom [⟨"gpio_block", some "digital", none, some 2, some 4⟩]
      = [gpioIfaceStr 0 4, gpioIfaceStr 1 4] := by decide

example :
    interfacesFrom [⟨"spi0", none, none, none, none⟩, ⟨"spi1", none, none, none, none⟩]
      = [spiIfaceStr 0, spiIfaceStr 1] := by decide

/-- The memory-map section text (lines 126-156 of the generator). -/
def memoryMapFrom (bs : List Block) : String :=
  "        # Memory regions:\n        self.mem_spiflash_base = 0x00000000\n        self.mem_sram_base     = 0x10000000\n\n        # Debug region\n        self.debug_base        = 0xa0000000\n\n        # CSR regions:\n        self.csr_base          = 0xb0000000" ++
    (if memHasQspi bs then "\n        self.csr_spiflash_base = 0xb0000000" else "") ++
    "\n        self.csr_gpio_base     = 0xb1000000\n        self.csr_uart_base     = 0xb2000000\n        self.csr_soc_id_base   = 0xb4000000" ++
    (if ioHasSpi bs then "\n        self.csr_spi_base      = 0xb5000000" else "") ++
    (if ioHasI2c bs then "\n        self.csr_i2c_base      = 0xb6000000" else "") ++
    "\n        \n        self.periph_offset     = 0x00100000\n        self.sram_size  = 0x800 # 2KiB\n        self.bios_start = 0x100000 # 1MiB into spiflash to make room for a bitstream"

/-- The sequence of base-address values assigned in the memory-map section,
in emission order (`mem_spiflash_base`, `mem_sram_base`, `debug_base`,
`csr_base`, conditional `csr_spiflash_base`, `csr_gpio_base`,
`csr_uart_base`, `csr_soc_id_base`, conditional `csr_spi_base`,
conditional `csr_i2c_base`). -/
def memoryMapAddrsFrom (bs : List Block) : List Nat :=
  [0x00000000, 0x10000000, 0xa0000000, 0xb0000000] ++
    (if memHasQspi bs then [0xb0000000] else []) ++
    [0xb1000000, 0xb2000000, 0xb4000000] ++
    (if ioHasSpi bs then [0xb5000000] else []) ++
    (if ioHasI2c bs then [0xb6000000] else [])

/-- CPU template for a `cv32e40p` id: core, debug module and JTAG wiring. -/
def cv32CpuCode : String :=
  "        # CPU\n        cpu = CV32E40P(config=\"default\", reset_vector=self.bios_start, dm_haltaddress=self.debug_base+0x800)\n        wb_arbiter.add(cpu.ibus)\n        wb_arbiter.add(cpu.dbus)\n        m.submodules.cpu = cpu\n\n        # Debug\n        debug = OBIDebugModule()\n        wb_arbiter.add(debug.initiator)\n        wb_decoder.add(debug.target, name=\"debug\", addr=self.debug_base)\n        m.d.comb += cpu.debug_req.eq(debug.debug_req)\n\n        m.d.comb += [\n            debug.jtag_tck.eq(self.cpu_jtag.tck.i),\n            debug.jtag_tms.eq(self.cpu_jtag.tms.i),\n            debug.jtag_tdi.eq(self.cpu_jtag.tdi.i),\n            debug.jtag_trst.eq(self.cpu_jtag.trst.i),\n            self.cpu_jtag.tdo.o.eq(debug.jtag_tdo),\n        ]\n        m.submodules.debug = debug"

/-- CPU template for a `minerva` id: processor core only. -/
def minervaCpuCode : String :=
  "        # CPU\n        cpu = Minerva(reset_address=self.bios_start, with_muldiv=True)\n        wb_arbiter.add(cpu.ibus)\n        wb_arbiter.add(cpu.dbus)\n        m.submodules.cpu = cpu"

/-- CPU instantiation block: chosen by the first processor-classified block. -/
def cpuCodeFrom (bs : List Block) : String :=
  match cpuOf bs with
  | some c =>
    if includes c.id "cv32e40p" then cv32CpuCode
    else if includes c.id "minerva" then minervaCpuCode
    else ""
  | none => ""

/-- QSPI flash instantiation fragment. -/
def qspiCode : String :=
  "\n        # QSPI Flash\n        spiflash = QSPIFlash(addr_width=24, data_width=32)\n        wb_decoder.add(spiflash.wb_bus, name=\"spiflash\", addr=self.mem_spiflash_base)\n        csr_decoder.add(spiflash.csr_bus, name=\"spiflash\", addr=self.csr_spiflash_base - self.csr_base)\n        m.submodules.spiflash = spiflash\n        connect(m, flipped(self.flash), spiflash.pins)"

/-- Baseline SRAM instantiation fragment — always emitted, with its own
inline `import` line. -/
def sramCode : String :=
  "\n        # SRAM\n        from amaranth_soc.wishbone.sram import WishboneSRAM\n        sram = WishboneSRAM(size=self.sram_size, data_width=32, granularity=8)\n        wb_decoder.add(sram.wb_bus, name=\"sram\", addr=self.mem_sram_base)\n        m.submodules.sram = sram"

/-- Memory instantiation block: conditional QSPI flash then unconditional SRAM. -/
def memoryCodeFrom (bs : List Block) : String :=
  (if memHasQspi bs then qspiCode else "") ++ sramCode

def gpioInstFragment (i bitSize : Nat) : String :=
  "\n        # GPIO " ++ toString i ++ "\n        m.submodules.gpio_" ++ toString i ++
    " = gpio_" ++ toString i ++ " = GPIOPeripheral(pin_count=" ++ toString bitSize ++
    ", addr_width=5)\n        csr_decoder.add(gpio_" ++ toString i ++
    ".bus, name=\"gpio_" ++ toString i ++ "\", addr=self.csr_gpio_base + " ++
    toString i ++ " * self.periph_offset - self.csr_base)\n        connect(m, flipped(self.gpio_" ++
    toString i ++ "), gpio_" ++ toString i ++ ".pins)"

def uartInstFragment (i : Nat) : String :=
  "\n        # UART " ++ toString i ++ "\n        m.submodules.uart_" ++ toString i ++
    " = uart_" ++ toString i ++
    " = UARTPeripheral(init_divisor=int(25e6//115200), addr_width=5)\n        csr_decoder.add(uart_" ++
    toString i ++ ".bus, name=\"uart_" ++ toString i ++
    "\", addr=self.csr_uart_base + " ++ toString i ++
    " * self.periph_offset - self.csr_base)\n        connect(m, flipped(self.uart_" ++
    toString i ++ "), uart_" ++ toString i ++ ".pins)"

def spiInstFragment (i : Nat) : String :=
  "\n        # SPI " ++ toString i ++ "\n        m.submodules.spi_" ++ toString i ++
    " = spi_" ++ toString i ++ " = SPIPeripheral()\n        csr_decoder.add(spi_" ++
    toString i ++ ".bus, name=\"spi_" ++ toString i ++
    "\", addr=self.csr_spi_base + " ++ toString i ++
    " * self.periph_offset - self.csr_base)\n        connect(m, flipped(self.spi_" ++
    toString i ++ "), spi_" ++ toString i ++ ".spi_pins)"

def i2cInstFragment (i : Nat) : String :=
  "\n        # I2C " ++ toString i ++ "\n        m.submodules.i2c_" ++ toString i ++
    " = i2c_" ++ toString i ++ " = I2CPeripheral()\n        csr_decoder.add(i2c_" ++
    toString i ++ ".bus, name=\"i2c_" ++ toString i ++
    "\", addr=self.csr_i2c_base + " ++ toString i ++
    " * self.periph_offset - self.csr_base)\n        connect(m, flipped(self.i2c_" ++
    toString i ++ "), i2c_" ++ toString i ++ ".i2c_pins)"

/-- GPIO instantiations: one fragment per GPIO-classified block, indexed by
block position (`forEach((block, index) => ...)`, `count` is not consulted). -/
def gpioCodePart (io : List Block) : String :=
  concatAll ((io.filter (fun b => includes b.id "gpio")).enum.map
    (fun p => gpioInstFragment p.1 (jsOrNat p.2.bitSize 8)))

/-- UART instantiations: one fragment per UART-classified block, by block position. -/
def uartCodePart (io : List Block) : String :=
  concatAll ((io.filter (fun b => includes b.id "uart")).enum.map
    (fun p => uartInstFragment p.1))

/-- One step of the SPI instantiation loop: the mutable `spiIndex` counter is
threaded as the first component, each block emits `count` fragments. -/
def spiInstStep (p : Nat × String) (b : Block) : Nat × String :=
  (p.1 + jsOrNat b.count 1,
   p.2 ++ concatAll ((List.range (jsOrNat b.count 1)).map
     (fun i => spiInstFragment (p.1 + i))))

/-- SPI instantiations: running index across all SPI-classified blocks. -/
def spiCodePart (io : List Block) : String :=
  ((io.filter (fun b => includes b.id "spi")).foldl spiInstStep (0, "")).2

/-- I2C instantiations: one fragment per I2C-classified block, by block position. -/
def i2cCodePart (io : List Block) : String :=
  concatAll ((io.filter (fun b => includes b.id "i2c")).enum.map
    (fun p => i2cInstFragment p.1))

/-- IO instantiation block: GPIO, UART, SPI then I2C loops. -/
def ioCodeFrom (bs : List Block) : String :=
  gpioCodePart (ioOf bs) ++ uartCodePart (ioOf bs) ++
    spiCodePart (ioOf bs) ++ i2cCodePart (ioOf bs)

/-- Final assembly of the `design.py` text (lines 261-313 of the generator). -/
def designPyFrom (bs : List Block) : String :=
  joinSep "\n" (importsFrom bs) ++
    "\n\n__all__ = [\"MySoC\"]\n\nclass MySoC(wiring.Component):\n    def __init__(self):\n        # Top level interfaces\n        super().__init__(\x7b\n" ++
    joinSep ",\n" ((interfacesFrom bs).map (fun s => "            " ++ s)) ++
    "\n        \x7d)\n\n" ++
    memoryMapFrom bs ++
    "\n\n    def elaborate(self, platform):\n        m = Module()\n\n        wb_arbiter  = wishbone.Arbiter(addr_width=30, data_width=32, granularity=8)\n        wb_decoder  = wishbone.Decoder(addr_width=30, data_width=32, granularity=8)\n        csr_decoder = csr.Decoder(addr_width=28, data_width=8)\n\n        m.submodules.wb_arbiter  = wb_arbiter\n        m.submodules.wb_decoder  = wb_decoder\n        m.submodules.csr_decoder = csr_decoder\n\n        connect(m, wb_arbiter.bus, wb_decoder.bus)\n\n" ++
    cpuCodeFrom bs ++ "\n" ++ memoryCodeFrom bs ++ "\n" ++ ioCodeFrom bs ++
    "\n\n        # SoC ID\n        soc_id = SoCID(type_id=0xCA7F100F)\n        csr_decoder.add(soc_id.bus, name=\"soc_id\", addr=self.csr_soc_id_base - self.csr_base)\n        m.submodules.soc_id = soc_id\n\n        # Wishbone-CSR bridge\n        wb_to_csr = WishboneCSRBridge(csr_decoder.bus, data_width=32)\n        wb_decoder.add(wb_to_csr.wb_bus, name=\"csr\", addr=self.csr_base, sparse=False)\n        m.submodules.wb_to_csr = wb_to_csr\n\n        sw = SoftwareBuild(sources=Path(\x27design/software\x27).glob(\x27*.c\x27),\n                           offset=self.bios_start)\n\n        # you need to attach data to both the internal and external interfaces" ++
    (if memHasQspi bs then "\n        attach_data(self.flash, m.submodules.spiflash, sw)"
     else "") ++
    "\n        return m\n\n\nif __name__ == \"__main__\":\n    from amaranth.back import verilog\n    soc_top = MySoC()\n    with open(\"build/soc_top.v\", \"w\") as f:\n        f.write(verilog.convert(soc_top, name=\"soc_top\"))\n"

/-- `generateDesignPy`: the whole transform, a pure function of the document. -/
def generateDesignPy (d : DesignData) : String :=
  designPyFrom (digitalBlocksOf d)

/-- Document-level views of the individual sections. -/
def importsOf (d : DesignData) : List String := importsFrom (digitalBlocksOf d)

def interfacesOf (d : DesignData) : List String :=
  interfacesFrom (digitalBlocksOf d)

def memoryMapAddrs (d : DesignData) : List Nat :=
  memoryMapAddrsFrom (digitalBlocksOf d)

def cpuCodeOf (d : DesignData) : String := cpuCodeFrom (digitalBlocksOf d)

def memoryCodeOf (d : DesignData) : String := memoryCodeFrom (digitalBlocksOf d)

def ioCodeOf (d : DesignData) : String := ioCodeFrom (digitalBlocksOf d)

/-- Number of starting positions of `sub` in `l` (counts occurrences). -/
def countOccurList (sub : List Char) : List Char → Nat
  | [] => 0
  | c :: t => (if leadsWith sub (c :: t) then 1 else 0) + countOccurList sub t

/-- Number of occurrences of `sub` in `s`. -/
def countOccur (s sub : String) : Nat := countOccurList sub.data s.data

example : countOccur "abcabca" "abc" = 2 := by decide
example : countOccur (spiCodePart [⟨"spi0", none, none, none, none⟩,
    ⟨"spi1", none, none, none, none⟩]) "# SPI " = 2 := by decide

/-! ### Helper lemmas about strings, substring search and the loop shapes -/

theorem data_append (a b : String) : (a ++ b).data = a.data ++ b.data := by
  cases a; cases b; rfl

theorem str_ext {a b : String} (h : a.data = b.data) : a = b := by
  cases a; cases b; exact congrArg String.mk h

theorem str_empty_append (s : String) : "" ++ s = s :=
  str_ext (by rw [data_append]; rfl)

theorem str_append_empty (s : String) : s ++ "" = s :=
  str_ext (by rw [data_append]; exact List.append_nil _)

theorem str_append_assoc (a b c : String) : (a ++ b) ++ c = a ++ (b ++ c) :=
  str_ext (by simp [data_append])

theorem leadsWith_append_self : ∀ (l t : List Char), leadsWith l (l ++ t) = true
  | [], _ => rfl
  | a :: as, t => by simp [leadsWith, leadsWith_append_self as t]

theorem leadsWith_extend : ∀ (sub l t : List Char),
    leadsWith sub l = true → leadsWith sub (l ++ t) = true
  | [], _, _, _ => rfl
  | _ :: _, [], _, h => by simp [leadsWith] at h
  | a :: as, b :: bs, t, h => by
    simp only [leadsWith, Bool.and_eq_true] at h ⊢
    exact ⟨h.1, leadsWith_extend as bs t h.2⟩

theorem occursIn_of_leadsWith (sub l : List Char) (h : leadsWith sub l = true) :
    occursIn sub l = true := by
  cases l with
  | nil => exact h
  | cons c t => simp [occursIn, h]

theorem occursIn_append_right : ∀ (sub l t : List Char),
    occursIn sub l = true → occursIn sub (l ++ t) = true
  | sub, [], t, h => by
    have hsub : sub = [] := by
      cases sub with
      | nil => rfl
      | cons a as => simp [occursIn, leadsWith] at h
    subst hsub
    exact occursIn_of_leadsWith [] t rfl
  | sub, c :: l', t, h => by
    simp only [occursIn, Bool.or_eq_true] at h ⊢
    rcases h with h | h
    · exact Or.inl (leadsWith_extend sub (c :: l') t h)
    · exact Or.inr (occursIn_append_right sub l' t h)

theorem occursIn_append_left : ∀ (sub a t : List Char),
    occursIn sub t = true → occursIn sub (a ++ t) = true
  | _, [], _, h => h
  | sub, c :: a', t, h => by
    simp only [List.cons_append, occursIn, Bool.or_eq_true]
    exact Or.inr (occursIn_append_left sub a' t h)

theorem includes_append_right (a b sub : String) (h : includes b sub = true) :
    includes (a ++ b) sub = true := by
  unfold includes at h ⊢
  rw [data_append]
  exact occursIn_append_left _ _ _ h

theorem includes_append_left (a b sub : String) (h : includes a sub = true) :
    includes (a ++ b) sub = true := by
  unfold includes at h ⊢
  rw [data_append]
  exact occursIn_append_right _ _ _ h

theorem leadsWith_iff : ∀ (sub l : List Char),
    leadsWith sub l = true ↔ ∃ t, l = sub ++ t
  | [], l => by simp [leadsWith]
  | a :: as, [] => by
    simp [leadsWith]
  | a :: as, b :: bs => by
    simp only [leadsWith, Bool.and_eq_true, beq_iff_eq, leadsWith_iff as bs,
      List.cons_append, List.cons.injEq]
    constructor
    · rintro ⟨rfl, t, rfl⟩; exact ⟨t, rfl, rfl⟩
    · rintro ⟨t, rfl, rfl⟩; exact ⟨rfl, t, rfl⟩

theorem occursIn_iff : ∀ (sub l : List Char),
    occursIn sub l = true ↔ ∃ p q, l = p ++ (sub ++ q)
  | sub, [] => by
    simp only [occursIn, leadsWith_iff]
    constructor
    · rintro ⟨t, ht⟩
      exact ⟨[], t, ht⟩
    · rintro ⟨p, q, hpq⟩
      rcases List.append_eq_nil.mp hpq.symm with ⟨rfl, h2⟩
      exact ⟨q, h2.symm⟩
  | sub, c :: l' => by
    simp only [occursIn, Bool.or_eq_true, leadsWith_iff, occursIn_iff sub l']
    constructor
    · rintro (⟨t, ht⟩ | ⟨p, q, hpq⟩)
      · exact ⟨[], t, ht⟩
      · exact ⟨c :: p, q, by simp [hpq]⟩
    · rintro ⟨p, q, hpq⟩
      cases p with
      | nil => exact Or.inl ⟨q, by simpa using hpq⟩
      | cons x p' =>
        simp only [List.cons_append, List.cons.injEq] at hpq
        exact Or.inr ⟨p', q, hpq.2⟩

theorem includes_trans (s m sub : String) (h1 : includes s m = true)
    (h2 : includes m sub = true) : includes s sub = true := by
  unfold includes at h1 h2 ⊢
  rw [occursIn_iff] at h1 h2 ⊢
  obtain ⟨p, q, hs⟩ := h1
  obtain ⟨p', q', hm⟩ := h2
  exact ⟨p ++ p', q' ++ q, by simp [hs, hm]⟩

theorem countOccurList_append_ge : ∀ (sub a b : List Char),
    countOccurList sub a + countOccurList sub b ≤ countOccurList sub (a ++ b)
  | sub, [], b => by simp [countOccurList]
  | sub, c :: a', b => by
    have ih := countOccurList_append_ge sub a' b
    have hext : leadsWith sub (c :: a') = true → leadsWith sub (c :: (a' ++ b)) = true := by
      intro h
      simpa using leadsWith_extend sub (c :: a') b h
    simp only [List.cons_append, countOccurList, List.append_eq] at ih ⊢
    split_ifs with h1 h2
    · omega
    · exact absurd (hext h1) h2
    · omega
    · omega

theorem countOccur_append_ge (a b sub : String) :
    countOccur a sub + countOccur b sub ≤ countOccur (a ++ b) sub := by
  unfold countOccur
  rw [data_append]
  exact countOccurList_append_ge _ _ _

theorem countOccur_le_append_right (a b sub : String) :
    countOccur b sub ≤ countOccur (a ++ b) sub := by
  have := countOccur_append_ge a b sub
  omega

theorem countOccur_le_append_left (a b sub : String) :
    countOccur a sub ≤ countOccur (a ++ b) sub := by
  have := countOccur_append_ge a b sub
  omega

theorem mem_addImport_self (l : List String) (x : String) : x ∈ addImport l x := by
  unfold addImport
  split
  · assumption
  · exact List.mem_append_right l (List.mem_singleton.mpr rfl)

theorem mem_addImport_of_mem (l : List String) (x y : String) (h : y ∈ l) :
    y ∈ addImport l x := by
  unfold addImport
  split
  · exact h
  · exact List.mem_append_left _ h

theorem nodup_addImport (l : List String) (x : String) (h : l.Nodup) :
    (addImport l x).Nodup := by
  unfold addImport
  split
  · exact h
  · rename_i hx
    rw [List.nodup_append]
    refine ⟨h, List.nodup_singleton x, ?_⟩
    intro a ha hax
    rw [List.mem_singleton] at hax
    subst hax
    exact hx ha

theorem mem_of_head? {α : Type} {l : List α} {c : α} (h : l.head? = some c) :
    c ∈ l := by
  cases l with
  | nil => simp at h
  | cons a t =>
    simp only [List.head?] at h
    injection h with h
    subst h
    exact List.mem_cons_self a t

theorem jsOrNat_one_succ (v : Option Nat) : ∃ k, jsOrNat v 1 = k + 1 := by
  unfold jsOrNat
  match v with
  | none => exact ⟨0, rfl⟩
  | some n =>
    cases n with
    | zero => exact ⟨0, rfl⟩
    | succ k => exact ⟨k, by simp⟩

/-! ### Monotonicity of the import-set construction -/

theorem mem_importsStage2_of_1 (bs : List Block) (x : String)
    (h : x ∈ importsStage1 bs) : x ∈ importsStage2 bs := by
  unfold importsStage2
  split
  · exact mem_addImport_of_mem _ _ _ h
  · exact h

theorem mem_importsStage3_of_2 (bs : List Block) (x : String)
    (h : x ∈ importsStage2 bs) : x ∈ importsStage3 bs := by
  unfold importsStage3
  split
  · exact mem_addImport_of_mem _ _ _ h
  · exact h

theorem mem_importsStage4_of_3 (bs : List Block) (x : String)
    (h : x ∈ importsStage3 bs) : x ∈ importsStage4 bs := by
  unfold importsStage4
  split
  · exact mem_addImport_of_mem _ _ _ h
  · exact h

theorem mem_importsStage5_of_4 (bs : List Block) (x : String)
    (h : x ∈ importsStage4 bs) : x ∈ importsStage5 bs := by
  rcases hc : cpuOf bs with _ | c <;> simp only [importsStage5, hc]
  · exact h
  · split_ifs <;> first
      | exact mem_addImport_of_mem _ _ _ h
      | exact h

theorem mem_importsFrom_of_5 (bs : List Block) (x : String)
    (h : x ∈ importsStage5 bs) : x ∈ importsFrom bs :=
  mem_addImport_of_mem _ _ _ h

theorem mem_importsFrom_of_4 (bs : List Block) (x : String)
    (h : x ∈ importsStage4 bs) : x ∈ importsFrom bs :=
  mem_importsFrom_of_5 bs x (mem_importsStage5_of_4 bs x h)

theorem mem_importsFrom_of_3 (bs : List Block) (x : String)
    (h : x ∈ importsStage3 bs) : x ∈ importsFrom bs :=
  mem_importsFrom_of_4 bs x (mem_importsStage4_of_3 bs x h)

theorem mem_importsFrom_of_2 (bs : List Block) (x : String)
    (h : x ∈ importsStage2 bs) : x ∈ importsFrom bs :=
  mem_importsFrom_of_3 bs x (mem_importsStage3_of_2 bs x h)

theorem mem_importsFrom_of_1 (bs : List Block) (x : String)
    (h : x ∈ importsStage1 bs) : x ∈ importsFrom bs :=
  mem_importsFrom_of_2 bs x (mem_importsStage2_of_1 bs x h)

theorem nodup_setFromList_aux : ∀ (xs acc : List String),
    acc.Nodup → (xs.foldl addImport acc).Nodup
  | [], _, h => h
  | x :: xs, acc, h =>
    nodup_setFromList_aux xs (addImport acc x) (nodup_addImport acc x h)

theorem nodup_importsStage0 : importsStage0.Nodup :=
  nodup_setFromList_aux _ [] List.nodup_nil

theorem nodup_importsFrom (bs : List Block) : (importsFrom bs).Nodup := by
  have h1 : (importsStage1 bs).Nodup := by
    unfold importsStage1
    split
    · exact nodup_addImport _ _ nodup_importsStage0
    · exact nodup_importsStage0
  have h2 : (importsStage2 bs).Nodup := by
    unfold importsStage2
    split
    · exact nodup_addImport _ _ h1
    · exact h1
  have h3 : (importsStage3 bs).Nodup := by
    unfold importsStage3
    split
    · exact nodup_addImport _ _ h2
    · exact h2
  have h4 : (importsStage4 bs).Nodup := by
    unfold importsStage4
    split
    · exact nodup_addImport _ _ h3
    · exact h3
  have h5 : (importsStage5 bs).Nodup := by
    rcases hc : cpuOf bs with _ | c <;> simp only [importsStage5, hc]
    · exact h4
    · split_ifs <;> first
        | exact nodup_addImport _ _ h4
        | exact h4
  exact nodup_addImport _ _ h5

theorem leadsWith_refl : ∀ l : List Char, leadsWith l l = true
  | [] => rfl
  | a :: as => by simp [leadsWith, leadsWith_refl as]

/-- `x` is a substring of itself. -/
theorem includes_self (x : String) : includes x x = true :=
  occursIn_of_leadsWith _ _ (leadsWith_refl x.data)

/-- Members of the joined list occur as substrings of the joined string. -/
theorem includes_joinSep_of_mem : ∀ (sep : String) (l : List String) (x : String),
    x ∈ l → includes (joinSep sep l) x = true
  | _, [], _, h => by simp at h
  | sep, [y], x, h => by
    rw [List.mem_singleton] at h
    subst h
    exact includes_self x
  | sep, y :: z :: t, x, h => by
    show includes (y ++ sep ++ joinSep sep (z :: t)) x = true
    rcases List.mem_cons.mp h with rfl | h'
    · exact includes_append_left _ _ _ (includes_append_left _ _ _ (includes_self x))
    · exact includes_append_right _ _ _ (includes_joinSep_of_mem sep (z :: t) x h')

/-! ### Shape lemmas about the interface and SPI loops -/

theorem ioInterfaceStep_extends (acc : List String) (b : Block) :
    ∃ t, ioInterfaceStep acc b = acc ++ t := by
  unfold ioInterfaceStep
  split_ifs
  · exact ⟨_, rfl⟩
  · exact ⟨_, rfl⟩
  · exact ⟨_, rfl⟩
  · exact ⟨_, rfl⟩
  · exact ⟨[], by simp⟩

theorem ioFold_extends : ∀ (bs : List Block) (acc : List String),
    ∃ t, List.foldl ioInterfaceStep acc bs = acc ++ t
  | [], acc => ⟨[], by simp⟩
  | b :: bs, acc => by
    obtain ⟨t1, h1⟩ := ioInterfaceStep_extends acc b
    obtain ⟨t2, h2⟩ := ioFold_extends bs (ioInterfaceStep acc b)
    exact ⟨t1 ++ t2, by rw [List.foldl_cons, h2, h1, List.append_assoc]⟩

theorem mem_ioFold_of_mem (bs : List Block) (acc : List String) (x : String)
    (h : x ∈ acc) : x ∈ List.foldl ioInterfaceStep acc bs := by
  obtain ⟨t, ht⟩ := ioFold_extends bs acc
  rw [ht]
  exact List.mem_append_left _ h

theorem spiFold_extends : ∀ (bs : List Block) (p : Nat × String),
    ∃ r, (List.foldl spiInstStep p bs).2 = p.2 ++ r
  | [], p => ⟨"", (str_append_empty p.2).symm⟩
  | b :: bs, p => by
    obtain ⟨r, hr⟩ := spiFold_extends bs (spiInstStep p b)
    rw [List.foldl_cons, hr]
    exact ⟨_, str_append_assoc p.2 _ r⟩

/-- When at least one SPI-classified block exists, the SPI instantiation code
starts with the index-0 fragment. -/
theorem spiFold_head (x : Block) (xs : List Block) :
    ∃ r, ((x :: xs).foldl spiInstStep (0, "")).2 = spiInstFragment 0 ++ r := by
  obtain ⟨r, hr⟩ := spiFold_extends xs (spiInstStep (0, "") x)
  rw [List.foldl_cons, hr]
  obtain ⟨k, hk⟩ := jsOrNat_one_succ x.count
  have hstep : (spiInstStep (0, "") x).2
      = spiInstFragment 0 ++ concatAll (((List.range k).map Nat.succ).map
          (fun i => spiInstFragment (0 + i))) := by
    show "" ++ concatAll ((List.range (jsOrNat x.count 1)).map
        (fun i => spiInstFragment (0 + i))) = _
    rw [hk, List.range_succ_eq_map, List.map_cons, str_empty_append]
    rfl
  rw [hstep, str_append_assoc]
  exact ⟨_, rfl⟩

theorem filter_eq_nil_of_any_false {p : Block → Bool} {l : List Block}
    (h : l.any p = false) : l.filter p = [] := by
  cases hf : l.filter p with
  | nil => rfl
  | cons a t =>
    have ha : a ∈ l.filter p := by rw [hf]; exact List.mem_cons_self a t
    have := List.mem_filter.mp ha
    rw [List.any_eq_true.mpr ⟨a, this.1, this.2⟩] at h
    cases h

/-! ### Claims -/

/-- C8: the transform is deterministic — two invocations of
`generateDesignPy` on the same configuration document return identical
artifact text (the transform is a pure function of the document). -/
theorem C8_deterministic (d1 d2 : DesignData) (h : d1 = d2) :
    generateDesignPy d1 = generateDesignPy d2 := by rw [h]

theorem C8_deterministic_witness :
    generateDesignPy ⟨none, none⟩ = generateDesignPy ⟨none, none⟩ :=
  C8_deterministic ⟨none, none⟩ ⟨none, none⟩ rfl

/-- C9: when `enabledBlocks` is present (even as an empty list) it is used
with the `type === "digital"` filter and `digitalBlocks` is ignored entirely
(the whole artifact is unchanged by `digitalBlocks`); the enabled-flag
filter applies only when `enabledBlocks` is absent. -/
theorem C9_enabledBlocks_precedence (l : List Block) (db db' : Option (List Block)) :
    digitalBlocksOf ⟨some l, db⟩ = l.filter (fun b => b.type == some "digital")
    ∧ generateDesignPy ⟨some l, db⟩ = generateDesignPy ⟨some l, db'⟩
    ∧ digitalBlocksOf ⟨none, db⟩
        = (db.getD []).filter (fun b => b.enabled == some true) :=
  ⟨rfl, rfl, rfl⟩

/-- C5: generation is total on documents missing both optional list fields —
with neither `enabledBlocks` nor `digitalBlocks` present every block
category is empty and the artifact is the fixed minimal one. -/
theorem C5_total_on_missing_lists (d : DesignData)
    (h1 : d.enabledBlocks = none) (h2 : d.digitalBlocks = none) :
    digitalBlocksOf d = []
    ∧ processorsOf (digitalBlocksOf d) = []
    ∧ memoryOf (digitalBlocksOf d) = []
    ∧ ioOf (digitalBlocksOf d) = []
    ∧ generateDesignPy d = designPyFrom [] := by
  have hd : d = ⟨none, none⟩ := by
    obtain ⟨eb, db⟩ := d
    simp only at h1 h2
    rw [h1, h2]
  subst hd
  exact ⟨rfl, rfl, rfl, rfl, rfl⟩

theorem C5_total_on_missing_lists_witness :
    digitalBlocksOf ⟨none, none⟩ = []
    ∧ processorsOf (digitalBlocksOf ⟨none, none⟩) = []
    ∧ memoryOf (digitalBlocksOf ⟨none, none⟩) = []
    ∧ ioOf (digitalBlocksOf ⟨none, none⟩) = []
    ∧ generateDesignPy ⟨none, none⟩ = designPyFrom [] :=
  C5_total_on_missing_lists ⟨none, none⟩ rfl rfl

/-- C4: for a configuration document whose block list is empty or absent,
the artifact has no CPU instantiation block, no interface declarations,
and its memory section is exactly the baseline SRAM instantiation
(one memory instantiation, no QSPI flash), with empty IO section. -/
theorem C4_minimal_artifact (d : DesignData) (h : allBlocks d = []) :
    cpuCodeOf d = ""
    ∧ interfacesOf d = []
    ∧ memoryCodeOf d = sramCode
    ∧ countOccur (memoryCodeOf d) "m.submodules.sram" = 1
    ∧ countOccur (memoryCodeOf d) "m.submodules.spiflash" = 0
    ∧ ioCodeOf d = "" := by
  have hbs : digitalBlocksOf d = [] := by
    unfold allBlocks at h
    rcases hd : d.enabledBlocks with _ | l
    · rw [hd, Option.getD_none] at h
      simp only [digitalBlocksOf, hd]
      rw [h]
      rfl
    · rw [hd, Option.getD_some] at h
      simp only [digitalBlocksOf, hd]
      rw [h]
      rfl
  have hmem : memoryCodeOf d = sramCode := by
    unfold memoryCodeOf memoryCodeFrom
    rw [hbs]
    exact str_empty_append sramCode
  refine ⟨?_, ?_, hmem, ?_, ?_, ?_⟩
  · unfold cpuCodeOf
    rw [hbs]
    decide
  · unfold interfacesOf
    rw [hbs]
    decide
  · rw [hmem]; decide
  · rw [hmem]; decide
  · unfold ioCodeOf
    rw [hbs]
    decide

theorem C4_minimal_artifact_witness :
    allBlocks ⟨none, none⟩ = []
    ∧ cpuCodeOf ⟨none, none⟩ = ""
    ∧ interfacesOf ⟨none, none⟩ = []
    ∧ memoryCodeOf ⟨none, none⟩ = sramCode :=
  ⟨rfl, (C4_minimal_artifact ⟨none, none⟩ rfl).1,
    (C4_minimal_artifact ⟨none, none⟩ rfl).2.1,
    (C4_minimal_artifact ⟨none, none⟩ rfl).2.2.1⟩

/-- C3 counterexample: the claim that all memory-map base addresses are
pairwise distinct fails on a document with a QSPI block —
`csr_spiflash_base` and `csr_base` are both `0xb0000000`. -/
theorem C3_counterexample :
    ¬ (memoryMapAddrs ⟨some [⟨"qspi_flash", some "digital", none, none, none⟩],
        none⟩).Nodup := by decide

/-- C3 (amended): all memory-map base addresses other than `0xb0000000` are
pairwise distinct; the value `0xb0000000` is assigned once (`csr_base`)
when no QSPI block is present and twice (`csr_base` and
`csr_spiflash_base`) when one is; in particular without a QSPI block the
whole memory map is duplicate-free. -/
theorem C3_memory_map_amended (d : DesignData) :
    ((memoryMapAddrs d).filter (fun a => a != 0xb0000000)).Nodup
    ∧ (memoryMapAddrs d).count 0xb0000000
        = (if memHasQspi (digitalBlocksOf d) then 2 else 1)
    ∧ (memHasQspi (digitalBlocksOf d) = false → (memoryMapAddrs d).Nodup) := by
  cases hq : memHasQspi (digitalBlocksOf d) <;>
    cases hs : ioHasSpi (digitalBlocksOf d) <;>
      cases hi : ioHasI2c (digitalBlocksOf d) <;>
        simp only [memoryMapAddrs, memoryMapAddrsFrom, hq, hs, hi] <;>
          exact ⟨by decide, by decide, by intro h; first
            | exact absurd h (by decide)
            | decide⟩

theorem C3_memory_map_amended_witness :
    (memoryMapAddrs ⟨none, none⟩).Nodup :=
  (C3_memory_map_amended ⟨none, none⟩).2.2 (by decide)

/-- C1: evaluation at the failing input — a single GPIO block with
`count = 2` yields two interface declarations (`gpio_0`, `gpio_1`) but
only one GPIO instantiation fragment, because the GPIO/UART/I2C
instantiation loops emit one fragment per block and ignore `count`. -/
theorem C1_count_expansion_eval :
    interfacesOf ⟨some [⟨"gpio0", some "digital", none, some 2, none⟩], none⟩
      = [gpioIfaceStr 0 8, gpioIfaceStr 1 8]
    ∧ countOccur
        (ioCodeOf ⟨some [⟨"gpio0", some "digital", none, some 2, none⟩], none⟩)
        "GPIOPeripheral(" = 1
    ∧ countOccur
        (ioCodeOf ⟨some [⟨"gpio0", some "digital", none, some 2, none⟩], none⟩)
        "# GPIO " = 1 :=
  ⟨by decide, by decide, by decide⟩

/-- C6: at most one CPU is instantiated — the CPU code block is empty or one
of the two fixed templates, each naming `m.submodules.cpu` at most once;
it is determined by the first processor-classified block (`cv32e40p` gives
core + debug module + JTAG wiring, otherwise — a `minerva` id — core only,
with no debug logic in the Minerva template). -/
theorem C6_single_cpu (d : DesignData) :
    (cpuCodeOf d = "" ∨ cpuCodeOf d = cv32CpuCode ∨ cpuCodeOf d = minervaCpuCode)
    ∧ countOccur (cpuCodeOf d) "m.submodules.cpu = cpu" ≤ 1
    ∧ (∀ c, cpuOf (digitalBlocksOf d) = some c →
        (includes c.id "cv32e40p" = true → cpuCodeOf d = cv32CpuCode)
        ∧ (includes c.id "cv32e40p" = false → cpuCodeOf d = minervaCpuCode))
    ∧ includes cv32CpuCode "m.submodules.debug = debug" = true
    ∧ includes cv32CpuCode "self.cpu_jtag" = true
    ∧ includes minervaCpuCode "debug" = false := by
  have hshape : cpuCodeOf d = "" ∨ cpuCodeOf d = cv32CpuCode
      ∨ cpuCodeOf d = minervaCpuCode := by
    rcases hc : cpuOf (digitalBlocksOf d) with _ | c <;>
      simp only [cpuCodeOf, cpuCodeFrom, hc]
    · simp
    · split_ifs <;> simp
  have hcount : countOccur (cpuCodeOf d) "m.submodules.cpu = cpu" ≤ 1 := by
    rcases hshape with h | h | h <;> rw [h] <;> decide
  refine ⟨hshape, hcount, ?_, by decide, by decide, by decide⟩
  intro c hc
  constructor
  · intro hcv
    simp [cpuCodeOf, cpuCodeFrom, hc, hcv]
  · intro hncv
    have hmem : c ∈ processorsOf (digitalBlocksOf d) := mem_of_head? hc
    have hpred : isProcessor c = true := (List.mem_filter.mp hmem).2
    have hmin : includes c.id "minerva" = true := by
      have hor : includes c.id "cv32e40p" = true ∨ includes c.id "minerva" = true := by
        simpa [isProcessor] using hpred
      rcases hor with hcv' | hmin
      · rw [hncv] at hcv'
        cases hcv'
      · exact hmin
    simp [cpuCodeOf, cpuCodeFrom, hc, hncv, hmin]

theorem C6_single_cpu_witness :
    cpuCodeOf ⟨some [⟨"cv32e40p_core", some "digital", none, none, none⟩], none⟩
      = cv32CpuCode :=
  ((C6_single_cpu
      ⟨some [⟨"cv32e40p_core", some "digital", none, none, none⟩], none⟩).2.2.1
    ⟨"cv32e40p_core", some "digital", none, none, none⟩ (by decide)).1 (by decide)

/-- Membership of the aggregated IO import line once some IO kind is present. -/
theorem ioImportLine_mem (bs : List Block)
    (h : 0 < (ioImportNames bs).length) : ioImportLine bs ∈ importsFrom bs := by
  apply mem_importsFrom_of_4
  unfold importsStage4
  rw [if_pos h]
  exact mem_addImport_self _ _

/-- Any IO peripheral class name pushed into `ioImports` has a covering
line in the final import set. -/
theorem mem_names_gives_import (bs : List Block) (x : String)
    (h : x ∈ ioImportNames bs) :
    ∃ imp ∈ importsFrom bs, includes imp x = true :=
  ⟨ioImportLine bs, ioImportLine_mem bs (List.length_pos_of_mem h),
    includes_append_right _ _ _ (includes_joinSep_of_mem _ _ _ h)⟩

/-- C2 counterexample: on the empty document the WishboneSRAM import line
appears (at least) twice in the artifact — once in the import header and
once inline inside the always-emitted SRAM instantiation fragment — so
"each import statement appears exactly once" fails. -/
theorem C2_duplicate_sram_import :
    2 ≤ countOccur (generateDesignPy ⟨none, none⟩) sramImport
    ∧ countOccur (joinSep "\n" (importsOf ⟨none, none⟩)) sramImport = 1
    ∧ countOccur (memoryCodeOf ⟨none, none⟩) sramImport = 1 := by
  have h1 : countOccur
      (joinSep "\n" (importsFrom (digitalBlocksOf (⟨none, none⟩ : DesignData))))
      sramImport = 1 := by decide
  have h9 : countOccur (memoryCodeFrom (digitalBlocksOf (⟨none, none⟩ : DesignData)))
      sramImport = 1 := by decide
  refine ⟨?_, h1, h9⟩
  simp only [generateDesignPy, designPyFrom]
  refine le_trans ?_ (countOccur_le_append_left _ _ _)
  refine le_trans ?_ (countOccur_le_append_left _ _ _)
  refine le_trans ?_ (countOccur_le_append_left _ _ _)
  refine le_trans ?_ (countOccur_le_append_left _ _ _)
  refine le_trans ?_ (countOccur_le_append_left _ _ _)
  refine le_trans ?_ (countOccur_append_ge _ _ _)
  rw [h9]
  have hA8 : 1 ≤ countOccur
      (joinSep "\n" (importsFrom (digitalBlocksOf (⟨none, none⟩ : DesignData))) ++
        "\n\n__all__ = [\"MySoC\"]\n\nclass MySoC(wiring.Component):\n    def __init__(self):\n        # Top level interfaces\n        super().__init__(\x7b\n" ++
        joinSep ",\n"
          ((interfacesFrom (digitalBlocksOf (⟨none, none⟩ : DesignData))).map
            (fun s => "            " ++ s)) ++
        "\n        \x7d)\n\n" ++
        memoryMapFrom (digitalBlocksOf (⟨none, none⟩ : DesignData)) ++
        "\n\n    def elaborate(self, platform):\n        m = Module()\n\n        wb_arbiter  = wishbone.Arbiter(addr_width=30, data_width=32, granularity=8)\n        wb_decoder  = wishbone.Decoder(addr_width=30, data_width=32, granularity=8)\n        csr_decoder = csr.Decoder(addr_width=28, data_width=8)\n\n        m.submodules.wb_arbiter  = wb_arbiter\n        m.submodules.wb_decoder  = wb_decoder\n        m.submodules.csr_decoder = csr_decoder\n\n        connect(m, wb_arbiter.bus, wb_decoder.bus)\n\n" ++
        cpuCodeFrom (digitalBlocksOf (⟨none, none⟩ : DesignData)) ++ "\n")
      sramImport := by
    refine le_trans ?_ (countOccur_le_append_left _ _ _)
    refine le_trans ?_ (countOccur_le_append_left _ _ _)
    refine le_trans ?_ (countOccur_le_append_left _ _ _)
    refine le_trans ?_ (countOccur_le_append_left _ _ _)
    refine le_trans ?_ (countOccur_le_append_left _ _ _)
    refine le_trans ?_ (countOccur_le_append_left _ _ _)
    exact le_of_eq h1.symm
  omega

/-- C2 (amended): the import header is duplicate-free and every identifier
referenced by an instantiation fragment is covered by an import — the
peripheral classes by the aggregated IO import line, QSPI flash and the CPU
cores by their conditional imports, and `WishboneSRAM` by the inline import
carried inside the always-present SRAM fragment itself (which duplicates
the header import whenever the header also contains it); fragments that
would reference an absent kind are not emitted. -/
theorem C2_imports_amended (d : DesignData) :
    (importsOf d).Nodup
    ∧ (ioHasGpio (digitalBlocksOf d) = true →
        ∃ imp ∈ importsOf d, includes imp "GPIOPeripheral" = true)
    ∧ (ioHasUart (digitalBlocksOf d) = true →
        ∃ imp ∈ importsOf d, includes imp "UARTPeripheral" = true)
    ∧ (ioHasSpi (digitalBlocksOf d) = true →
        ∃ imp ∈ importsOf d, includes imp "SPIPeripheral" = true)
    ∧ (ioHasI2c (digitalBlocksOf d) = true →
        ∃ imp ∈ importsOf d, includes imp "I2CPeripheral" = true)
    ∧ (memHasQspi (digitalBlocksOf d) = true → qspiMemImport ∈ importsOf d)
    ∧ (cpuIsCv32 (digitalBlocksOf d) = true → cv32Import ∈ importsOf d)
    ∧ (cpuIsMinerva (digitalBlocksOf d) = true → minervaImport ∈ importsOf d)
    ∧ includes (memoryCodeOf d) sramImport = true
    ∧ (ioHasGpio (digitalBlocksOf d) = false →
        gpioCodePart (ioOf (digitalBlocksOf d)) = "")
    ∧ (ioHasUart (digitalBlocksOf d) = false →
        uartCodePart (ioOf (digitalBlocksOf d)) = "")
    ∧ (ioHasSpi (digitalBlocksOf d) = false →
        spiCodePart (ioOf (digitalBlocksOf d)) = "")
    ∧ (ioHasI2c (digitalBlocksOf d) = false →
        i2cCodePart (ioOf (digitalBlocksOf d)) = "")
    ∧ (memHasQspi (digitalBlocksOf d) = false → memoryCodeOf d = sramCode)
    ∧ (cpuOf (digitalBlocksOf d) = none → cpuCodeOf d = "") := by
  refine ⟨nodup_importsFrom _, ?_, ?_, ?_, ?_, ?_, ?_, ?_, ?_, ?_, ?_, ?_, ?_, ?_, ?_⟩
  · intro h
    exact mem_names_gives_import _ _ (by simp [ioImportNames, h])
  · intro h
    exact mem_names_gives_import _ _ (by simp [ioImportNames, h])
  · intro h
    exact mem_names_gives_import _ _ (by simp [ioImportNames, h])
  · intro h
    exact mem_names_gives_import _ _ (by simp [ioImportNames, h])
  · intro h
    apply mem_importsFrom_of_1
    unfold importsStage1
    rw [if_pos h]
    exact mem_addImport_self _ _
  · intro h
    apply mem_importsFrom_of_5
    unfold cpuIsCv32 at h
    rcases hc : cpuOf (digitalBlocksOf d) with _ | c
    · rw [hc] at h
      cases h
    · rw [hc] at h
      simp only [importsStage5, hc]
      rw [if_pos h]
      exact mem_addImport_self _ _
  · intro h
    apply mem_importsFrom_of_5
    unfold cpuIsMinerva at h
    rcases hc : cpuOf (digitalBlocksOf d) with _ | c
    · rw [hc] at h
      cases h
    · rw [hc] at h
      have hparts := Bool.and_eq_true _ _ ▸ h
      have hncv : includes c.id "cv32e40p" = false := by
        have := hparts.1
        simpa using this
      have hmin : includes c.id "minerva" = true := hparts.2
      simp only [importsStage5, hc]
      rw [if_neg (by simp [hncv]), if_pos hmin]
      exact mem_addImport_self _ _
  · unfold memoryCodeOf memoryCodeFrom
    exact includes_append_right _ _ _ (by decide)
  · intro h
    unfold gpioCodePart
    rw [filter_eq_nil_of_any_false h]
    rfl
  · intro h
    unfold uartCodePart
    rw [filter_eq_nil_of_any_false h]
    rfl
  · intro h
    unfold spiCodePart
    rw [filter_eq_nil_of_any_false h]
    rfl
  · intro h
    unfold i2cCodePart
    rw [filter_eq_nil_of_any_false h]
    rfl
  · intro h
    unfold memoryCodeOf memoryCodeFrom
    rw [if_neg (by simp [h])]
    exact str_empty_append sramCode
  · intro h
    simp [cpuCodeOf, cpuCodeFrom, h]

theorem C2_imports_amended_witness :
    (importsOf ⟨some [⟨"gpio0", some "digital", none, none, none⟩], none⟩).Nodup
    ∧ ∃ imp ∈ importsOf ⟨some [⟨"gpio0", some "digital", none, none, none⟩], none⟩,
        includes imp "GPIOPeripheral" = true :=
  ⟨(C2_imports_amended ⟨some [⟨"gpio0", some "digital", none, none, none⟩], none⟩).1,
    (C2_imports_amended ⟨some [⟨"gpio0", some "digital", none, none, none⟩],
      none⟩).2.1 (by decide)⟩

/-- C7: a document whose IO-classified blocks are two SPI-keyword block
descriptors, each with `count = 1`, gets SPI instantiation indices `0`
and `1` and SPI interface suffixes `0` and `1` — a running counter across
the two blocks, not a per-block restart. -/
theorem C7_spi_running_index (d : DesignData) (b1 b2 : Block)
    (hio : ioOf (digitalBlocksOf d) = [b1, b2])
    (hs1 : includes b1.id "spi" = true) (hg1 : includes b1.id "gpio" = false)
    (hu1 : includes b1.id "uart" = false) (hi1 : includes b1.id "i2c" = false)
    (hs2 : includes b2.id "spi" = true) (hg2 : includes b2.id "gpio" = false)
    (hu2 : includes b2.id "uart" = false) (hi2 : includes b2.id "i2c" = false)
    (hc1 : jsOrNat b1.count 1 = 1) (hc2 : jsOrNat b2.count 1 = 1) :
    ioCodeOf d = spiInstFragment 0 ++ spiInstFragment 1
    ∧ (interfacesOf d).filter (fun s => includes s "spi_")
        = [spiIfaceStr 0, spiIfaceStr 1] := by
  constructor
  · have hfg : (ioOf (digitalBlocksOf d)).filter (fun b => includes b.id "gpio")
        = [] := by
      rw [hio]; simp [hg1, hg2]
    have hfu : (ioOf (digitalBlocksOf d)).filter (fun b => includes b.id "uart")
        = [] := by
      rw [hio]; simp [hu1, hu2]
    have hfi : (ioOf (digitalBlocksOf d)).filter (fun b => includes b.id "i2c")
        = [] := by
      rw [hio]; simp [hi1, hi2]
    have hfs : (ioOf (digitalBlocksOf d)).filter (fun b => includes b.id "spi")
        = [b1, b2] := by
      rw [hio]; simp [hs1, hs2]
    have e1 : gpioCodePart (ioOf (digitalBlocksOf d)) = "" := by
      unfold gpioCodePart; rw [hfg]; rfl
    have e2 : uartCodePart (ioOf (digitalBlocksOf d)) = "" := by
      unfold uartCodePart; rw [hfu]; rfl
    have e4 : i2cCodePart (ioOf (digitalBlocksOf d)) = "" := by
      unfold i2cCodePart; rw [hfi]; rfl
    have e3 : spiCodePart (ioOf (digitalBlocksOf d))
        = spiInstFragment 0 ++ spiInstFragment 1 := by
      unfold spiCodePart
      rw [hfs]
      simp only [List.foldl_cons, List.foldl_nil, spiInstStep, hc1, hc2]
      decide
    unfold ioCodeOf ioCodeFrom
    rw [e1, e2, e3, e4]
    decide
  · unfold interfacesOf interfacesFrom
    rw [hio]
    rcases hq : memHasQspi (digitalBlocksOf d) <;>
      rcases hcv : cpuIsCv32 (digitalBlocksOf d) <;>
        simp [ifaceInit, hq, hcv, List.foldl_cons, List.foldl_nil,
          ioInterfaceStep, hg1, hu1, hs1, hg2, hu2, hs2, hc1, hc2] <;>
          decide

theorem C7_spi_running_index_witness :
    ioCodeOf ⟨some [⟨"spi0", some "digital", none, none, none⟩,
        ⟨"spi1", some "digital", none, none, none⟩], none⟩
      = spiInstFragment 0 ++ spiInstFragment 1 :=
  (C7_spi_running_index
    ⟨some [⟨"spi0", some "digital", none, none, none⟩,
      ⟨"spi1", some "digital", none, none, none⟩], none⟩
    ⟨"spi0", some "digital", none, none, none⟩
    ⟨"spi1", some "digital", none, none, none⟩
    (by decide) (by decide) (by decide) (by decide) (by decide) (by decide)
    (by decide) (by decide) (by decide) (by decide) (by decide)).1

/-- C10 counterexample: a selected block whose id contains `qspi` but also
`gpio` (id `gpio_qspi`) is IO-classified, yet contributes no SPI interface
declaration — the interface loop takes the GPIO branch first — refuting
the claim that every `qspi` block contributes an SPI peripheral interface. -/
theorem C10_gpio_qspi_counterexample :
    includes (Block.id ⟨"gpio_qspi", some "digital", none, none, none⟩) "qspi" = true
    ∧ (⟨"gpio_qspi", some "digital", none, none, none⟩ : Block)
        ∈ ioOf (digitalBlocksOf
            ⟨some [⟨"gpio_qspi", some "digital", none, none, none⟩], none⟩)
    ∧ (interfacesOf
        ⟨some [⟨"gpio_qspi", some "digital", none, none, none⟩], none⟩).filter
          (fun s => includes s "spi_") = [] :=
  ⟨by decide, by decide, by decide⟩

/-- C10 (amended): every selected block whose id contains `qspi` is placed in
both the memory and the IO category (since `spi` is a substring of `qspi`),
so the artifact gets the QSPI-flash memory fragment, the flash interface,
and an SPI instantiation fragment; it additionally gets an SPI interface
declaration provided the block id does not also match the earlier `gpio`
or `uart` interface branches. -/
theorem C10_qspi_dual_classification (d : DesignData) (b : Block)
    (hb : b ∈ digitalBlocksOf d) (hq : includes b.id "qspi" = true) :
    b ∈ memoryOf (digitalBlocksOf d)
    ∧ b ∈ ioOf (digitalBlocksOf d)
    ∧ includes (memoryCodeOf d) "# QSPI Flash" = true
    ∧ flashIface ∈ interfacesOf d
    ∧ includes (ioCodeOf d) "# SPI 0" = true
    ∧ (includes b.id "gpio" = false → includes b.id "uart" = false →
        ∃ s ∈ interfacesOf d, includes s "spi_" = true) := by
  have hspi : includes b.id "spi" = true :=
    includes_trans b.id "qspi" "spi" hq (by decide)
  have hmemb : b ∈ memoryOf (digitalBlocksOf d) :=
    List.mem_filter.mpr ⟨hb, by simp [isMemory, hq]⟩
  have hiob : b ∈ ioOf (digitalBlocksOf d) :=
    List.mem_filter.mpr ⟨hb, by simp [isIoBlock, hspi]⟩
  have hqm : memHasQspi (digitalBlocksOf d) = true :=
    List.any_eq_true.mpr ⟨b, hmemb, hq⟩
  have hmc : includes (memoryCodeOf d) "# QSPI Flash" = true := by
    unfold memoryCodeOf memoryCodeFrom
    rw [if_pos hqm]
    exact includes_append_left _ _ _ (by decide)
  have hfi : flashIface ∈ interfacesOf d := by
    unfold interfacesOf interfacesFrom
    apply mem_ioFold_of_mem
    unfold ifaceInit
    rw [if_pos hqm]
    exact List.mem_append_left _ (List.mem_cons_self _ _)
  have hsp : includes (ioCodeOf d) "# SPI 0" = true := by
    have hbf : b ∈ (ioOf (digitalBlocksOf d)).filter (fun x => includes x.id "spi") :=
      List.mem_filter.mpr ⟨hiob, hspi⟩
    rcases hl : (ioOf (digitalBlocksOf d)).filter (fun x => includes x.id "spi")
      with _ | ⟨x, xs⟩
    · rw [hl] at hbf
      cases hbf
    · obtain ⟨r, hr⟩ := spiFold_head x xs
      unfold ioCodeOf ioCodeFrom
      apply includes_append_left
      apply includes_append_right
      unfold spiCodePart
      rw [hl, hr]
      exact includes_append_left _ _ _ (by decide)
  refine ⟨hmemb, hiob, hmc, hfi, hsp, ?_⟩
  intro hg hu
  obtain ⟨pre, post, hsplit⟩ := List.append_of_mem hiob
  unfold interfacesOf interfacesFrom
  rw [hsplit, List.foldl_append, List.foldl_cons]
  have hstep : ioInterfaceStep
      (List.foldl ioInterfaceStep (ifaceInit (digitalBlocksOf d)) pre) b
      = List.foldl ioInterfaceStep (ifaceInit (digitalBlocksOf d)) pre ++
          (List.range (jsOrNat b.count 1)).map
            (fun i => spiIfaceStr
              (((List.foldl ioInterfaceStep (ifaceInit (digitalBlocksOf d)) pre).filter
                  (fun s => includes s "spi_")).length + i)) := by
    unfold ioInterfaceStep
    rw [if_neg (by simp [hg]), if_neg (by simp [hu]), if_pos hspi]
  obtain ⟨k, hk⟩ := jsOrNat_one_succ b.count
  refine ⟨spiIfaceStr
      (((List.foldl ioInterfaceStep (ifaceInit (digitalBlocksOf d)) pre).filter
          (fun s => includes s "spi_")).length + 0), ?_, ?_⟩
  · apply mem_ioFold_of_mem
    rw [hstep]
    apply List.mem_append_right
    apply List.mem_map.mpr
    exact ⟨0, by rw [hk]; exact List.mem_range.mpr (Nat.succ_pos k), rfl⟩
  · unfold spiIfaceStr
    apply includes_append_left
    apply includes_append_left
    decide

theorem C10_qspi_dual_classification_witness :
    includes (ioCodeOf
        ⟨some [⟨"qspi_flash", some "digital", none, none, none⟩], none⟩)
      "# SPI 0" = true :=
  (C10_qspi_dual_classification
    ⟨some [⟨"qspi_flash", some "digital", none, none, none⟩], none⟩
    ⟨"qspi_flash", some "digital", none, none, none⟩
    (by decide) (by decide)).2.2.2.2.1

end DesignGen
